import Mathlib

/-!
Verification development for the gin-contrib/graceful lifecycle manager.

The development shallowly embeds the repository's state and operations:

* `Graceful` mirrors the mutable state of the Go struct `Graceful`
  (`graceful.go`): the tracked `servers` slice, the `listenAndServe`
  slice of serve functions, the `cleanup` slice, and the started flag of
  the Start/Stop state machine.
* External effects (binding a unix socket, adopting a file descriptor,
  the outcome of a blocking serve call, the outcome of a per-server
  `http.Server.Shutdown`) are oracles: fields of `Env` and of
  `HTTPServer`.  Machine-level networking is outside the embedding.
* Serve functions are represented by the `Strategy` value they close
  over; executing a serve function performs its state effect
  (`Graceful.serveEffect`, the lazy `appendHTTPServer` /
  `appendExistHTTPServer` calls of `options.go`) and yields the oracle
  result `Env.serve`.
* Goroutine scheduling is resolved deterministically: serve-function
  state effects are folded in registration order, and serve results are
  listed in completion order where completion order matters
  (`egWait`).
-/

/-- Go `error` values are represented by their message strings. -/
abbrev Err := String

/-- `http.ErrServerClosed`, the benign outcome of a serve loop. -/
def errServerClosed : Err := "http: Server closed"

/-- `ErrAlreadyStarted` from `graceful.go`. -/
def errAlreadyStarted : Err := "already started router"

/-- `ErrNotStarted` from `graceful.go`. -/
def errNotStarted : Err := "router not started"

/-- The error returned by `WithServer` for a nil server (`options.go`). -/
def errNilServer : Err := "nil http server"

/-- `context.Canceled` from the Go standard library. -/
def errContextCanceled : Err := "context canceled"

/-- An `http.Server` as far as the lifecycle manager manipulates it:
its address, whether the shared gin handler has been attached, its
read-header timeout (seconds), whether it carries a TLS configuration,
and the oracle outcome of invoking its graceful-shutdown primitive. -/
structure HTTPServer where
  id : Nat
  addr : String
  handlerSet : Bool
  readHeaderTimeout : Nat
  hasTLSConfig : Bool
  shutdownResult : Option Err
  deriving DecidableEq, Repr

/-- A listener strategy: the data each `WithX` option closes over.
A preconfigured server (`WithServer`) carries `Option HTTPServer`
because the Go API accepts a possibly nil `*http.Server`. -/
inductive Strategy where
  | addr (a : String)
  | tls (a certFile keyFile : String)
  | unixSock (file : String)
  | fd (n : Nat)
  | listener (lid : Nat)
  | server (srv : Option HTTPServer)
  deriving DecidableEq, Repr

/-- The cleanup function registered by a strategy, identified by the
resource actions it performs: `donothing`, removing a unix socket file
and closing its listener, or closing a file-descriptor listener and its
file handle. -/
inductive CleanupAct where
  | donothing
  | unixCleanup (file : String)
  | fdCleanup (n : Nat)
  deriving DecidableEq, Repr

/-- The mutable state of the Go struct `Graceful` (`graceful.go`):
tracked servers, registered serve functions, registered cleanup
functions, and the Start/Stop flag (`started != nil` in Go). -/
structure Graceful where
  servers : List HTTPServer
  listenAndServe : List Strategy
  cleanup : List CleanupAct
  started : Bool
  nextId : Nat
  deriving DecidableEq, Repr

/-- Oracles for the external world: the result of binding a unix socket
at apply time (`net.ListenConfig.Listen`), of adopting a file
descriptor (`net.FileListener`), and of a blocking serve call for a
given strategy (`ListenAndServe`, `ListenAndServeTLS`, `Serve`).
`none` means success / clean return. -/
structure Env where
  unixListen : String → Option Err
  fdListen : Nat → Option Err
  serve : Strategy → Option Err

/-- `appendHTTPServer` (`graceful.go`): construct a fresh `http.Server`
with the shared handler attached and `ReadHeaderTimeout: time.Second*5`,
append it to the tracked servers, and return it.  The subsequent
`srv.Addr = addr` assignment performed by the caller is folded into the
construction via the `a` argument (`""` when the caller sets no
address). -/
def Graceful.appendHTTPServer (g : Graceful) (a : String) : HTTPServer × Graceful :=
  let srv : HTTPServer :=
    { id := g.nextId, addr := a, handlerSet := true, readHeaderTimeout := 5,
      hasTLSConfig := false, shutdownResult := none }
  (srv, { g with servers := g.servers ++ [srv], nextId := g.nextId + 1 })

/-- `appendExistHTTPServer` (`graceful.go`): attach the shared handler
to a caller-supplied server and append it to the tracked servers.  No
timeout field is touched. -/
def Graceful.appendExistHTTPServer (g : Graceful) (srv : HTTPServer) : Graceful :=
  { g with servers := g.servers ++ [{ srv with handlerSet := true }] }

/-- The body of each `Option` closure (`options.go`): given the
environment, produce the serve function (identified by its strategy)
and the cleanup function, or fail.  `WithServer` checks for nil
eagerly; `WithUnix` binds the socket and `WithFd` adopts the descriptor
at apply time; `WithAddr`, `WithTLS` and `WithListener` cannot fail. -/
def optionApply (env : Env) (s : Strategy) : Except Err (Strategy × CleanupAct) :=
  match s with
  | .addr a => .ok (.addr a, .donothing)
  | .tls a c k => .ok (.tls a c k, .donothing)
  | .unixSock f =>
      match env.unixListen f with
      | some e => .error e
      | none => .ok (.unixSock f, .unixCleanup f)
  | .fd n =>
      match env.fdListen n with
      | some e => .error e
      | none => .ok (.fd n, .fdCleanup n)
  | .listener lid => .ok (.listener lid, .donothing)
  | .server none => .error errNilServer
  | .server (some srv) => .ok (.server (some srv), .donothing)

/-- `Graceful.apply` (`graceful.go`): run the option, and on success
append the serve function and the cleanup function to their lists; on
failure return the error with the state untouched. -/
def Graceful.apply (env : Env) (g : Graceful) (s : Strategy) : Except Err Graceful :=
  match optionApply env s with
  | .error e => .error e
  | .ok (se, cl) =>
      .ok { g with
              listenAndServe := g.listenAndServe ++ [se],
              cleanup := g.cleanup ++ [cl] }

/-- The default address used by `ensureAtLeastDefaultServer`. -/
def defaultAddr : String := ":8080"

/-- `ensureAtLeastDefaultServer` (`graceful.go`): if no serve function
is registered, apply `WithAddr(":8080")`; otherwise leave the state
unchanged. -/
def Graceful.ensureAtLeastDefaultServer (env : Env) (g : Graceful) : Except Err Graceful :=
  if g.listenAndServe.length = 0 then g.apply env (.addr defaultAddr) else .ok g

/-- The `for _, srv := range g.servers` loop of `Shutdown`
(`graceful.go`): call every server's shutdown primitive in order,
overwrite the remembered error with each non-nil outcome, and record
the id of every server that received a call. -/
def shutdownLoopGo : List HTTPServer → Option Err → Option Err × List Nat
  | [], acc => (acc, [])
  | srv :: rest, acc =>
      let acc' := match srv.shutdownResult with
        | some e => some e
        | none => acc
      let r := shutdownLoopGo rest acc'
      (r.1, srv.id :: r.2)

/-- The last non-`none` entry of a list of optional errors. -/
def lastSome (l : List (Option Err)) : Option Err :=
  (l.filterMap id).getLast?

/-- Result of `Graceful.Shutdown`: the new state, the returned error,
and the ids of the servers whose shutdown primitive was invoked. -/
structure ShutdownOutcome where
  state : Graceful
  err : Option Err
  calls : List Nat
  deriving DecidableEq, Repr

/-- `Shutdown` (`graceful.go`): run the per-server loop, clear the
tracked-server slice (`g.servers = nil`), and return the remembered
error. -/
def Graceful.Shutdown (g : Graceful) : ShutdownOutcome :=
  let r := shutdownLoopGo g.servers none
  { state := { g with servers := [] }, err := r.1, calls := r.2 }

/-- The state effect of a serve function at the moment it starts
running (`options.go`): `WithAddr` calls `appendHTTPServer` and sets
the address; `WithTLS` does the same and then appends the very same
server to `g.servers` a second time under the lock; `WithUnix`,
`WithFd` and `WithListener` go through `listen`, which calls
`appendHTTPServer` without setting an address; `WithServer` calls
`appendExistHTTPServer`.  A nil preconfigured server is never launched
because its apply failed. -/
def Graceful.serveEffect (g : Graceful) (s : Strategy) : Graceful :=
  match s with
  | .addr a => (g.appendHTTPServer a).2
  | .tls a _ _ =>
      let p := g.appendHTTPServer a
      { p.2 with servers := p.2.servers ++ [p.1] }
  | .unixSock _ => (g.appendHTTPServer "").2
  | .fd _ => (g.appendHTTPServer "").2
  | .listener _ => (g.appendHTTPServer "").2
  | .server none => g
  | .server (some srv) => g.appendExistHTTPServer srv

/-- The wrapper `RunWithContext` places around each serve function in
`eg.Go` (`graceful.go`): an error equal to `http.ErrServerClosed` is
treated as success, anything else is returned. -/
def wrapServe (r : Option Err) : Option Err :=
  match r with
  | none => none
  | some e => if e = errServerClosed then none else some e

/-- `errgroup.Group.Wait` on a plain (context-free) group: it returns
the error of the first goroutine, in completion order, whose function
returned a non-nil error.  The argument lists the wrapped results in
completion order. -/
def egWait (results : List (Option Err)) : Option Err :=
  (results.filterMap id).head?

/-- `waitWithContext` (`graceful.go`): return the group error if any;
otherwise return the context's error if the context is done, else
nil. -/
def waitWithContext (ctxDone : Bool) (ctxErr : Err) (results : List (Option Err)) : Option Err :=
  match egWait results with
  | some e => some e
  | none => if ctxDone then some ctxErr else none

/-- Result of `Graceful.RunWithContext`: the returned error, the final
state at the moment the call returns, the serve functions that were
launched, and whether the background watcher invoked `Shutdown` while
the run was still waiting (`earlyShutdown`). -/
structure RunOutcome where
  result : Option Err
  state : Graceful
  launched : List Strategy
  earlyShutdown : Bool
  deriving Repr

/-- `RunWithContext` (`graceful.go`).  `parentDone` says whether the
caller's context gets cancelled during the run; `parentErr` is that
context's error.  The source derives a child context via
`context.WithCancel(ctx)` and spawns a watcher that runs `Shutdown`
once the child context is done.  The only cancellations of the child
context are the parent's and the `defer cancel()` that runs after the
function returns; in particular the `eg.Go` wrapper never cancels it
(the errgroup is a plain `errgroup.Group{}` with no attached context),
so during the wait the child context is done exactly when the parent
is, and that is the only way the watcher's `Shutdown` can run before
the wait finishes.  Serve-function state effects are folded in
registration order; their results are read off in the same order,
standing for completion order. -/
def Graceful.RunWithContext (env : Env) (parentDone : Bool) (parentErr : Err)
    (g : Graceful) : RunOutcome :=
  match g.ensureAtLeastDefaultServer env with
  | .error e => { result := some e, state := g, launched := [], earlyShutdown := false }
  | .ok g1 =>
      let launched := g1.listenAndServe
      let g2 := launched.foldl Graceful.serveEffect g1
      let waitErr := waitWithContext parentDone parentErr
        ((launched.map env.serve).map wrapServe)
      let g3 := if parentDone then g2.Shutdown.state else g2
      match waitErr with
      | some e => { result := some e, state := g3, launched := launched,
                    earlyShutdown := parentDone }
      | none =>
          let sd := g3.Shutdown
          { result := sd.err, state := sd.state, launched := launched,
            earlyShutdown := parentDone }

/-- `Run` (`graceful.go`): apply `WithAddr` for every given address,
then delegate to `RunWithContext` with a background (never cancelled)
context. -/
def Graceful.Run (env : Env) (g : Graceful) : List String → RunOutcome
  | [] => g.RunWithContext env false errContextCanceled
  | a :: rest =>
      match g.apply env (.addr a) with
      | .error e => { result := some e, state := g, launched := [], earlyShutdown := false }
      | .ok g' => g'.Run env rest

/-- `RunTLS` (`graceful.go`): apply `WithTLS`, then delegate to
`RunWithContext` with a background context. -/
def Graceful.RunTLS (env : Env) (g : Graceful) (a c k : String) : RunOutcome :=
  match g.apply env (.tls a c k) with
  | .error e => { result := some e, state := g, launched := [], earlyShutdown := false }
  | .ok g' => g'.RunWithContext env false errContextCanceled

/-- `Start` (`graceful.go`): under the lock, fail with
`ErrAlreadyStarted` if the started marker is set, otherwise record the
stop handle and the started marker and return nil.  The launched
background `RunWithContext` is not part of the state transition. -/
def Graceful.Start (g : Graceful) : Graceful × Option Err :=
  if g.started then (g, some errAlreadyStarted)
  else ({ g with started := true }, none)

/-- The post-processing `Stop` applies to the awaited run error
(`graceful.go`): a non-`context.Canceled` error (including nil) is
returned as is; `context.Canceled` is converted to nil, because the
started context's own error is always `context.Canceled` (its cancel
function runs before the error is sent). -/
def stopResult (runErr : Option Err) : Option Err :=
  if runErr = some errContextCanceled then none else runErr

/-- `Stop` (`graceful.go`): under the lock, fail with `ErrNotStarted`
if no started marker is set, leaving the state untouched; otherwise
clear the markers, cancel the run's context, await the run's error
`runErr` and return its post-processed value. -/
def Graceful.Stop (g : Graceful) (runErr : Option Err) : Graceful × Option Err :=
  if g.started then ({ g with started := false }, stopResult runErr)
  else (g, some errNotStarted)

/-- The `for _, c := range g.cleanup` loop of `Close` (`graceful.go`):
invoke every cleanup function in order; the returned list records the
invocations. -/
def runCleanupsGo : List CleanupAct → List CleanupAct
  | [] => []
  | c :: rest => c :: runCleanupsGo rest

/-- Result of `Graceful.Close`: the final state, the ids of the servers
shut down by the initial `Shutdown` call (whose error is ignored — the
Go `Close` returns nothing), and the cleanup invocations performed. -/
structure CloseOutcome where
  state : Graceful
  shutdownCalls : List Nat
  cleanupCalls : List CleanupAct
  deriving DecidableEq, Repr

/-- `Close` (`graceful.go`): call `Shutdown` with a background context
and ignore its error, invoke every registered cleanup function, then
set all three collections to nil. -/
def Graceful.Close (g : Graceful) : CloseOutcome :=
  let sd := g.Shutdown
  { state := { sd.state with cleanup := [], listenAndServe := [], servers := [] },
    shutdownCalls := sd.calls,
    cleanupCalls := runCleanupsGo sd.state.cleanup }

/-- The state a fresh `Graceful` starts from (`New` before any option
is applied). -/
def initialGraceful : Graceful :=
  { servers := [], listenAndServe := [], cleanup := [], started := false, nextId := 0 }

/-- The option loop of `New` (`graceful.go`): apply each option in
order; on the first failure, `Close` the partially built instance and
return the error. -/
def NewGo (env : Env) (g : Graceful) : List Strategy → Except Err Graceful
  | [] => .ok g
  | o :: rest =>
      match g.apply env o with
      | .error e => .error e
      | .ok g' => NewGo env g' rest

/-- `New` (`graceful.go`): build a `Graceful` from a fresh state by
applying the given options. -/
def New (env : Env) (opts : List Strategy) : Except Err Graceful :=
  NewGo env initialGraceful opts

/-- Modelled from the spec: the default per-server read timeout.  The
configurable-timeout feature (`WithServerTimeouts`,
`WithShutdownTimeout` and the constants `DefaultReadTimeout` etc.) is
exercised by the repository's tests and documented in its README, but
its implementation is not among the provided sources; values follow
the README (15s). -/
def DefaultReadTimeout : Nat := 15

/-- Modelled from the spec: the default per-server write timeout (30s,
see `DefaultReadTimeout` for provenance). -/
def DefaultWriteTimeout : Nat := 30

/-- Modelled from the spec: the default per-server idle timeout (60s,
see `DefaultReadTimeout` for provenance). -/
def DefaultIdleTimeout : Nat := 60

/-- The fixed read-header timeout (5s), the value `appendHTTPServer`
hard-codes in `graceful.go`. -/
def DefaultReadHeaderTimeout : Nat := 5

/-- The four timeout fields of a constructed server, in seconds. -/
structure ServerTimeouts where
  readTimeout : Nat
  writeTimeout : Nat
  idleTimeout : Nat
  readHeaderTimeout : Nat
  deriving DecidableEq, Repr

/-- Modelled from the spec: a configured timeout left at its zero value
falls back to the fixed default constant. -/
def resolveTimeout (configured dflt : Nat) : Nat :=
  if configured = 0 then dflt else configured

/-- Modelled from the spec: the timeouts given to a server the manager
constructs, from the manager's configured read/write/idle timeouts
(zero meaning unset).  Read, write and idle each fall back to their
default constant; the fixed non-zero read-header timeout is applied
regardless of configuration. -/
def buildServerTimeouts (readT writeT idleT : Nat) : ServerTimeouts :=
  { readTimeout := resolveTimeout readT DefaultReadTimeout,
    writeTimeout := resolveTimeout writeT DefaultWriteTimeout,
    idleTimeout := resolveTimeout idleT DefaultIdleTimeout,
    readHeaderTimeout := DefaultReadHeaderTimeout }

/-- Modelled from the spec: a shutdown hook (`WithBeforeShutdown` /
`WithAfterShutdown`).  The hook implementation is exercised by the
repository's examples and documented in its README, but its source is
not among the provided files.  A hook is identified by a name and
carries the oracle outcome of invoking it with the shutdown context. -/
structure Hook where
  name : String
  result : Option Err
  deriving DecidableEq, Repr

/-- An observable step of the hook-aware shutdown sequence. -/
inductive ShutdownEvent where
  | hookBefore (name : String)
  | serverShutdown (id : Nat)
  | hookAfter (name : String)
  deriving DecidableEq, Repr

/-- Modelled from the spec: run a phase's hooks in registration order,
recording one event per hook and collecting the failures; a failure
never stops the remaining hooks of the phase. -/
def runHooksGo (mk : String → ShutdownEvent) : List Hook → List ShutdownEvent × List Err
  | [] => ([], [])
  | h :: rest =>
      let r := runHooksGo mk rest
      (mk h.name :: r.1,
       match h.result with
       | some e => e :: r.2
       | none => r.2)

/-- Modelled from the spec: the state seen by the hook-aware
`Shutdown` — the tracked servers plus the two ordered hook
sequences. -/
structure GracefulH where
  servers : List HTTPServer
  beforeShutdownHooks : List Hook
  afterShutdownHooks : List Hook
  deriving DecidableEq, Repr

/-- Result of the hook-aware shutdown: the new state, the ordered
event trace, the per-server loop's error, and the collected hook
failures (the combined hook error value). -/
structure HookShutdownOutcome where
  state : GracefulH
  events : List ShutdownEvent
  serverErr : Option Err
  hookErrs : List Err
  deriving DecidableEq, Repr

/-- Modelled from the spec: `Shutdown` with hooks.  All
before-shutdown hooks run first in registration order, then the
per-server shutdown loop of `graceful.go` runs, then all
after-shutdown hooks run in registration order; hook failures are
collected but do not prevent the per-server loop. -/
def shutdownWithHooks (g : GracefulH) : HookShutdownOutcome :=
  let bef := runHooksGo .hookBefore g.beforeShutdownHooks
  let sd := shutdownLoopGo g.servers none
  let aft := runHooksGo .hookAfter g.afterShutdownHooks
  { state := { g with servers := [] },
    events := bef.1 ++ sd.2.map ShutdownEvent.serverShutdown ++ aft.1,
    serverErr := sd.1,
    hookErrs := bef.2 ++ aft.2 }

/-- The invariant of claim C10: the serve-function list and the
cleanup-function list always have equal length. -/
def lenInv (g : Graceful) : Prop :=
  g.listenAndServe.length = g.cleanup.length

/-- The body `RunWithContext` executes on the state returned by
`ensureAtLeastDefaultServer` (which always succeeds, `WithAddr` never
failing at apply time). -/
def runBody (env : Env) (pd : Bool) (pe : Err) (g1 : Graceful) : RunOutcome :=
  let launched := g1.listenAndServe
  let g2 := launched.foldl Graceful.serveEffect g1
  let waitErr := waitWithContext pd pe ((launched.map env.serve).map wrapServe)
  let g3 := if pd then g2.Shutdown.state else g2
  match waitErr with
  | some e => { result := some e, state := g3, launched := launched, earlyShutdown := pd }
  | none =>
      let sd := g3.Shutdown
      { result := sd.err, state := sd.state, launched := launched, earlyShutdown := pd }

/-- An environment in which every external operation succeeds. -/
def env0 : Env :=
  { unixListen := fun _ => none, fdListen := fun _ => none, serve := fun _ => none }

/-- An environment in which serving on ":9090" fails with "boom" and
everything else succeeds. -/
def env5 : Env :=
  { unixListen := fun _ => none, fdListen := fun _ => none,
    serve := fun s => if s = Strategy.addr ":9090" then some "boom" else none }

/-- A manager that has exactly one Address strategy applied and no
tracked server yet. -/
def g5 : Graceful :=
  { servers := [], listenAndServe := [Strategy.addr ":9090"],
    cleanup := [CleanupAct.donothing], started := false, nextId := 0 }

/-- The state after applying one default Address strategy to a fresh
manager. -/
def gA : Graceful :=
  { servers := [], listenAndServe := [Strategy.addr ":8080"],
    cleanup := [CleanupAct.donothing], started := false, nextId := 0 }

/-- A manager whose started marker is set. -/
def gStarted : Graceful :=
  { initialGraceful with started := true }

/-- The bind error a serve function reports when its address is
already in use. -/
def errBind : Err := "listen tcp :8081: bind: address already in use"

/-- An environment in which serving on ":8081" fails with a bind error
while every other serve call ends with the benign closed condition. -/
def env7 : Env :=
  { unixListen := fun _ => none, fdListen := fun _ => none,
    serve := fun s => if s = Strategy.addr ":8081" then some errBind
                      else some errServerClosed }

/-- A manager with two Address strategies applied. -/
def g7 : Graceful :=
  { servers := [], listenAndServe := [Strategy.addr ":8081", Strategy.addr ":8082"],
    cleanup := [CleanupAct.donothing, CleanupAct.donothing], started := false, nextId := 0 }

/-- A manager with exactly one TLS strategy applied. -/
def tlsOnly (a c k : String) : Graceful :=
  { servers := [], listenAndServe := [Strategy.tls a c k],
    cleanup := [CleanupAct.donothing], started := false, nextId := 0 }

theorem getLast?_cons_eq_or {α : Type} (a : α) (t : List α) :
    (a :: t).getLast? = Option.or t.getLast? (some a) := by
  cases t with
  | nil => rfl
  | cons b l =>
      rw [List.getLast?_cons_cons]
      cases h : (b :: l).getLast? with
      | none => exact absurd (List.getLast?_eq_none_iff.mp h) (List.cons_ne_nil b l)
      | some z => rfl

theorem shutdownLoopGo_calls (l : List HTTPServer) :
    ∀ acc, (shutdownLoopGo l acc).2 = l.map (fun s => s.id) := by
  induction l with
  | nil => intro acc; rfl
  | cons s t ih => intro acc; simp [shutdownLoopGo, ih]

theorem shutdownLoopGo_err (l : List HTTPServer) :
    ∀ acc, (shutdownLoopGo l acc).1
      = Option.or ((l.filterMap fun s => s.shutdownResult).getLast?) acc := by
  induction l with
  | nil => intro acc; rfl
  | cons s t ih =>
      intro acc
      cases h : s.shutdownResult with
      | none => simp [shutdownLoopGo, h, ih, List.filterMap_cons]
      | some e =>
          simp only [shutdownLoopGo, h, ih (some e), List.filterMap_cons]
          rw [getLast?_cons_eq_or]
          cases (t.filterMap fun s => s.shutdownResult).getLast? <;> rfl

theorem lastSome_eq_filterMap (l : List HTTPServer) :
    lastSome (l.map fun s => s.shutdownResult)
      = (l.filterMap fun s => s.shutdownResult).getLast? := by
  simp [lastSome, List.filterMap_map, Function.comp_def]

theorem shutdown_err_eq (g : Graceful) :
    g.Shutdown.err = lastSome (g.servers.map fun s => s.shutdownResult) := by
  rw [lastSome_eq_filterMap]
  show (shutdownLoopGo g.servers none).1 = _
  rw [shutdownLoopGo_err]
  cases (g.servers.filterMap fun s => s.shutdownResult).getLast? <;> rfl

theorem runHooksGo_events (mk : String → ShutdownEvent) (l : List Hook) :
    (runHooksGo mk l).1 = l.map (fun h => mk h.name) := by
  induction l with
  | nil => rfl
  | cons h t ih => simp [runHooksGo, ih]

theorem runHooksGo_errs (mk : String → ShutdownEvent) (l : List Hook) :
    (runHooksGo mk l).2 = l.filterMap (fun h => h.result) := by
  induction l with
  | nil => rfl
  | cons h t ih => cases hr : h.result <;> simp [runHooksGo, hr, ih, List.filterMap_cons]

/-- C1: every call to the hook-aware Shutdown produces the trace
"all before-shutdown hooks in registration order, then the per-server
shutdown loop over every tracked server, then all after-shutdown hooks
in registration order"; hook failures are collected into the combined
error value, and — whatever the hook outcomes are — the per-server
loop runs over the whole server collection. -/
theorem c1_shutdown_runs_hooks_around_server_loop (g : GracefulH) :
    (shutdownWithHooks g).events
        = g.beforeShutdownHooks.map (fun h => ShutdownEvent.hookBefore h.name)
          ++ g.servers.map (fun s => ShutdownEvent.serverShutdown s.id)
          ++ g.afterShutdownHooks.map (fun h => ShutdownEvent.hookAfter h.name)
      ∧ (shutdownWithHooks g).hookErrs
        = g.beforeShutdownHooks.filterMap (fun h => h.result)
          ++ g.afterShutdownHooks.filterMap (fun h => h.result)
      ∧ (shutdownWithHooks g).serverErr
        = lastSome (g.servers.map fun s => s.shutdownResult)
      ∧ (shutdownWithHooks g).state.servers = [] := by
  refine ⟨?_, ?_, ?_, rfl⟩
  · show (runHooksGo .hookBefore g.beforeShutdownHooks).1
        ++ ((shutdownLoopGo g.servers none).2).map ShutdownEvent.serverShutdown
        ++ (runHooksGo .hookAfter g.afterShutdownHooks).1 = _
    rw [runHooksGo_events, runHooksGo_events, shutdownLoopGo_calls, List.map_map]
    rfl
  · show (runHooksGo .hookBefore g.beforeShutdownHooks).2
        ++ (runHooksGo .hookAfter g.afterShutdownHooks).2 = _
    rw [runHooksGo_errs, runHooksGo_errs]
  · show (shutdownLoopGo g.servers none).1 = _
    rw [lastSome_eq_filterMap, shutdownLoopGo_err]
    cases (g.servers.filterMap fun s => s.shutdownResult).getLast? <;> rfl

theorem serveEffect_listenAndServe (g : Graceful) (s : Strategy) :
    (g.serveEffect s).listenAndServe = g.listenAndServe := by
  cases s with
  | addr a => rfl
  | tls a c k => rfl
  | unixSock f => rfl
  | fd n => rfl
  | listener lid => rfl
  | server o => cases o <;> rfl

theorem serveEffect_cleanup (g : Graceful) (s : Strategy) :
    (g.serveEffect s).cleanup = g.cleanup := by
  cases s with
  | addr a => rfl
  | tls a c k => rfl
  | unixSock f => rfl
  | fd n => rfl
  | listener lid => rfl
  | server o => cases o <;> rfl

theorem serveEffect_started (g : Graceful) (s : Strategy) :
    (g.serveEffect s).started = g.started := by
  cases s with
  | addr a => rfl
  | tls a c k => rfl
  | unixSock f => rfl
  | fd n => rfl
  | listener lid => rfl
  | server o => cases o <;> rfl

theorem serveEffect_servers_le (g : Graceful) (s : Strategy) :
    g.servers.length ≤ (g.serveEffect s).servers.length := by
  cases s with
  | addr a =>
      simp only [Graceful.serveEffect, Graceful.appendHTTPServer, List.length_append]
      omega
  | tls a c k =>
      simp only [Graceful.serveEffect, Graceful.appendHTTPServer, List.length_append]
      omega
  | unixSock f =>
      simp only [Graceful.serveEffect, Graceful.appendHTTPServer, List.length_append]
      omega
  | fd n =>
      simp only [Graceful.serveEffect, Graceful.appendHTTPServer, List.length_append]
      omega
  | listener lid =>
      simp only [Graceful.serveEffect, Graceful.appendHTTPServer, List.length_append]
      omega
  | server o =>
      cases o <;>
        simp only [Graceful.serveEffect, Graceful.appendExistHTTPServer,
          List.length_append] <;> omega

theorem foldl_serveEffect_listenAndServe (l : List Strategy) :
    ∀ g : Graceful, (l.foldl Graceful.serveEffect g).listenAndServe = g.listenAndServe := by
  induction l with
  | nil => intro g; rfl
  | cons s t ih => intro g; rw [List.foldl_cons, ih, serveEffect_listenAndServe]

theorem foldl_serveEffect_cleanup (l : List Strategy) :
    ∀ g : Graceful, (l.foldl Graceful.serveEffect g).cleanup = g.cleanup := by
  induction l with
  | nil => intro g; rfl
  | cons s t ih => intro g; rw [List.foldl_cons, ih, serveEffect_cleanup]

theorem ensure_eq (env : Env) (g : Graceful) :
    g.ensureAtLeastDefaultServer env
      = .ok (if g.listenAndServe.length = 0
          then { g with listenAndServe := g.listenAndServe ++ [Strategy.addr defaultAddr],
                        cleanup := g.cleanup ++ [CleanupAct.donothing] }
          else g) := by
  unfold Graceful.ensureAtLeastDefaultServer
  split <;> rename_i h <;> simp [h, Graceful.apply, optionApply]

theorem runWithContext_launched (env : Env) (pd : Bool) (pe : Err) (g : Graceful) :
    (g.RunWithContext env pd pe).launched
      = if g.listenAndServe.length = 0 then [Strategy.addr defaultAddr]
        else g.listenAndServe := by
  unfold Graceful.RunWithContext
  rw [ensure_eq]
  by_cases h : g.listenAndServe.length = 0
  · have hl : g.listenAndServe = [] := List.length_eq_zero.mp h
    simp only [h, if_true, hl, List.nil_append]
    split <;> rfl
  · simp only [h, if_false]
    split <;> rfl

theorem runWithContext_earlyShutdown (env : Env) (pd : Bool) (pe : Err) (g : Graceful) :
    (g.RunWithContext env pd pe).earlyShutdown = pd := by
  unfold Graceful.RunWithContext
  rw [ensure_eq]
  by_cases h : g.listenAndServe.length = 0 <;>
    simp only [h, if_true, if_false] <;> split <;> rfl

theorem runWithContext_state_listenAndServe (env : Env) (pd : Bool) (pe : Err) (g : Graceful) :
    (g.RunWithContext env pd pe).state.listenAndServe
      = (g.RunWithContext env pd pe).launched := by
  unfold Graceful.RunWithContext
  rw [ensure_eq]
  by_cases h : g.listenAndServe.length = 0 <;>
    simp only [h, if_true, if_false] <;>
    split <;> cases pd <;>
      simp [Graceful.Shutdown, foldl_serveEffect_listenAndServe, serveEffect_listenAndServe]

theorem runWithContext_state_cleanup (env : Env) (pd : Bool) (pe : Err) (g : Graceful) :
    (g.RunWithContext env pd pe).state.cleanup
      = (if g.listenAndServe.length = 0 then g.cleanup ++ [CleanupAct.donothing]
         else g.cleanup) := by
  unfold Graceful.RunWithContext
  rw [ensure_eq]
  by_cases h : g.listenAndServe.length = 0 <;>
    simp only [h, if_true, if_false] <;>
    split <;> cases pd <;>
      simp [Graceful.Shutdown, foldl_serveEffect_cleanup, serveEffect_cleanup]

/-- C3: the run operation injects exactly one default Address strategy
bound to ":8080" before launching serve functions if and only if zero
listener strategies were applied; a `Run*` entry point that applied a
strategy launches exactly the applied strategies and injects no
default; `Run` with no address delegates directly to
`RunWithContext`. -/
theorem c3_default_listener_injected_iff_no_strategies (env : Env) (pd : Bool) (pe : Err)
    (g : Graceful) (a c k a' : String) :
    ((g.RunWithContext env pd pe).launched
        = if g.listenAndServe.length = 0 then [Strategy.addr defaultAddr]
          else g.listenAndServe)
      ∧ (g.RunTLS env a c k).launched = g.listenAndServe ++ [Strategy.tls a c k]
      ∧ (g.Run env [a']).launched = g.listenAndServe ++ [Strategy.addr a']
      ∧ g.Run env [] = g.RunWithContext env false errContextCanceled := by
  refine ⟨runWithContext_launched env pd pe g, ?_, ?_, rfl⟩
  · simp [Graceful.RunTLS, Graceful.apply, optionApply, runWithContext_launched]
  · simp [Graceful.Run, Graceful.apply, optionApply, runWithContext_launched]

/-- C4: for every server the manager constructs, the read, write and
idle timeouts fall back to their fixed non-zero default constants when
the corresponding configured value is left at zero (and keep the
configured value otherwise), all resulting timeouts are non-zero, and
the fixed non-zero read-header timeout is applied regardless of
configuration — also by the `appendHTTPServer` of `graceful.go`. -/
theorem c4_timeouts_default_when_unset (r w i : Nat) (g : Graceful) (a : String) :
    (buildServerTimeouts r w i).readTimeout = (if r = 0 then DefaultReadTimeout else r)
      ∧ (buildServerTimeouts r w i).writeTimeout = (if w = 0 then DefaultWriteTimeout else w)
      ∧ (buildServerTimeouts r w i).idleTimeout = (if i = 0 then DefaultIdleTimeout else i)
      ∧ 0 < (buildServerTimeouts r w i).readTimeout
      ∧ 0 < (buildServerTimeouts r w i).writeTimeout
      ∧ 0 < (buildServerTimeouts r w i).idleTimeout
      ∧ (buildServerTimeouts r w i).readHeaderTimeout = DefaultReadHeaderTimeout
      ∧ 0 < DefaultReadHeaderTimeout
      ∧ (g.appendHTTPServer a).1.readHeaderTimeout = DefaultReadHeaderTimeout := by
  refine ⟨rfl, rfl, rfl, ?_, ?_, ?_, rfl, by decide, rfl⟩ <;>
  · simp only [buildServerTimeouts, resolveTimeout, DefaultReadTimeout,
      DefaultWriteTimeout, DefaultIdleTimeout]
    split <;> omega

theorem apply_ok_fields (env : Env) (g : Graceful) (s : Strategy) (g' : Graceful)
    (h : g.apply env s = .ok g') :
    g'.servers = g.servers
      ∧ g'.started = g.started
      ∧ g'.listenAndServe.length = g.listenAndServe.length + 1
      ∧ g'.cleanup.length = g.cleanup.length + 1 := by
  unfold Graceful.apply at h
  cases ho : optionApply env s with
  | error e => rw [ho] at h; exact Except.noConfusion h
  | ok p =>
      obtain ⟨se, cl⟩ := p
      rw [ho] at h
      injection h with h2
      subst h2
      refine ⟨rfl, rfl, ?_, ?_⟩ <;> simp

theorem runCleanupsGo_eq (l : List CleanupAct) : runCleanupsGo l = l := by
  induction l with
  | nil => rfl
  | cons c t ih => simp [runCleanupsGo, ih]

/-- C5 counterexample: on the reachable state `g5` (one applied
Address strategy, empty server collection), `RunWithContext` — an
operation other than apply, and one that performs no apply here (no
default is injected, as the unchanged `launched` list shows) — adds an
element to the tracked-server collection: the serve function appends
its server when it starts running, so the collection grows from 0 to 1
elements during the run.  This refutes "the three collections grow
only via the apply-strategy operation". -/
theorem c5_counterexample :
    New env5 [Strategy.addr ":9090"] = .ok g5
      ∧ g5.servers.length = 0
      ∧ (g5.RunWithContext env5 false errContextCanceled).launched = g5.listenAndServe
      ∧ (g5.RunWithContext env5 false errContextCanceled).state.servers.length = 1 := by
  exact ⟨rfl, rfl, rfl, rfl⟩

/-- C5 (amended): the serve-function and cleanup-function collections
grow only via apply — each successful apply appends exactly one entry
to both, and Shutdown, Start and Stop leave them unchanged — while the
tracked-server collection grows only when serve functions execute
during a run; Shutdown clears only the tracked servers, and only Close
clears all three collections together. -/
theorem c5_amended_collection_discipline (env : Env) (g : Graceful) (s : Strategy)
    (runErr : Option Err) :
    (∀ g', g.apply env s = .ok g' →
        g'.servers = g.servers
          ∧ g'.listenAndServe.length = g.listenAndServe.length + 1
          ∧ g'.cleanup.length = g.cleanup.length + 1)
      ∧ g.Shutdown.state.listenAndServe = g.listenAndServe
      ∧ g.Shutdown.state.cleanup = g.cleanup
      ∧ g.Shutdown.state.servers = []
      ∧ (g.Start).1.servers = g.servers
      ∧ (g.Start).1.listenAndServe = g.listenAndServe
      ∧ (g.Start).1.cleanup = g.cleanup
      ∧ (g.Stop runErr).1.servers = g.servers
      ∧ (g.Stop runErr).1.listenAndServe = g.listenAndServe
      ∧ (g.Stop runErr).1.cleanup = g.cleanup
      ∧ g.Close.state.servers = []
      ∧ g.Close.state.listenAndServe = []
      ∧ g.Close.state.cleanup = []
      ∧ (g.serveEffect s).listenAndServe = g.listenAndServe
      ∧ (g.serveEffect s).cleanup = g.cleanup
      ∧ g.servers.length ≤ (g.serveEffect s).servers.length := by
  refine ⟨?_, rfl, rfl, rfl, ?_, ?_, ?_, ?_, ?_, ?_, rfl, rfl, rfl,
    serveEffect_listenAndServe g s, serveEffect_cleanup g s, serveEffect_servers_le g s⟩
  · intro g' h
    have hf := apply_ok_fields env g s g' h
    exact ⟨hf.1, hf.2.2.1, hf.2.2.2⟩
  all_goals first
    | (unfold Graceful.Start; split <;> rfl)
    | (unfold Graceful.Stop; split <;> rfl)

theorem c5_amended_witness :
    gA.servers = initialGraceful.servers
      ∧ gA.listenAndServe.length = initialGraceful.listenAndServe.length + 1
      ∧ gA.cleanup.length = initialGraceful.cleanup.length + 1 :=
  (c5_amended_collection_discipline env0 initialGraceful (Strategy.addr ":8080") none).1 gA rfl

/-- C6: Start returns the "already started" error exactly when the
started marker of a prior unmatched Start is set, and Stop returns the
"not started" error exactly when no Start is outstanding; in both
error cases the call returns with the whole manager state unchanged,
while the success cases only toggle the started marker. -/
theorem c6_start_stop_state_errors (g : Graceful) (runErr : Option Err) :
    ((g.Start).2 = some errAlreadyStarted ↔ g.started = true)
      ∧ (g.started = true → g.Start = (g, some errAlreadyStarted))
      ∧ (g.started = false → g.Start = ({ g with started := true }, none))
      ∧ (g.started = false → g.Stop runErr = (g, some errNotStarted))
      ∧ (g.started = true → g.Stop runErr = ({ g with started := false }, stopResult runErr))
      ∧ (((g.Stop runErr).2 = some errNotStarted ∧ (g.Stop runErr).1 = g)
          ↔ g.started = false) := by
  refine ⟨?_, ?_, ?_, ?_, ?_, ?_⟩
  · cases hs : g.started <;> simp [Graceful.Start, hs]
  · intro hs; simp [Graceful.Start, hs]
  · intro hs; simp [Graceful.Start, hs]
  · intro hs; simp [Graceful.Stop, hs]
  · intro hs; simp [Graceful.Stop, hs]
  · cases hs : g.started
    · simp [Graceful.Stop, hs]
    · simp only [Graceful.Stop, hs, if_true]
      constructor
      · rintro ⟨h1, h2⟩
        have h3 := congrArg Graceful.started h2
        rw [hs] at h3
        exact Bool.noConfusion h3
      · intro hc
        exact Bool.noConfusion hc

theorem c6_witness :
    gStarted.Start = (gStarted, some errAlreadyStarted)
      ∧ initialGraceful.Stop none = (initialGraceful, some errNotStarted) :=
  ⟨(c6_start_stop_state_errors gStarted none).2.1 rfl,
   (c6_start_stop_state_errors initialGraceful none).2.2.2.1 rfl⟩

/-- C8: Close first invokes Shutdown — whose per-server error it
discards, Close having no error result — attempting every tracked
server, then invokes every registered cleanup function exactly once in
registration order, then discards all three internal collections; a
second Close invokes no cleanup function again and performs no
per-server shutdown, so no transport resource is released twice. -/
theorem c8_close_runs_cleanups_once_and_is_idempotent (g : Graceful) :
    g.Close.cleanupCalls = g.cleanup
      ∧ g.Close.shutdownCalls = g.servers.map (fun s => s.id)
      ∧ g.Close.state.servers = []
      ∧ g.Close.state.listenAndServe = []
      ∧ g.Close.state.cleanup = []
      ∧ g.Close.state.Close.cleanupCalls = []
      ∧ g.Close.state.Close.shutdownCalls = [] := by
  exact ⟨runCleanupsGo_eq g.cleanup, shutdownLoopGo_calls g.servers none,
    rfl, rfl, rfl, rfl, rfl⟩

theorem runWithContext_eq_body (env : Env) (pd : Bool) (pe : Err) (g : Graceful) :
    g.RunWithContext env pd pe
      = runBody env pd pe (if g.listenAndServe.length = 0
          then { g with listenAndServe := g.listenAndServe ++ [Strategy.addr defaultAddr],
                        cleanup := g.cleanup ++ [CleanupAct.donothing] }
          else g) := by
  unfold Graceful.RunWithContext
  rw [ensure_eq]
  rfl

theorem runBody_result_of_wait (env : Env) (pd : Bool) (pe : Err) (g1 : Graceful) (e' : Err)
    (h : waitWithContext pd pe ((g1.listenAndServe.map env.serve).map wrapServe) = some e') :
    (runBody env pd pe g1).result = some e' := by
  simp only [runBody, h]

/-- C7 (amended): a serve function returning the benign "server
closed" condition contributes no error; any other serve error becomes
the terminal error of the whole run, with first-error-wins semantics
in completion order when several listeners fail — but a serve error
does not cancel the derived context, so the sibling listeners are NOT
shut down early: the watcher's Shutdown runs during the wait exactly
when the caller's own context is cancelled. -/
theorem c7_serve_error_terminal_but_no_early_shutdown (rs : List (Option Err)) (e : Err)
    (pd : Bool) (pe : Err) (env : Env) (g : Graceful) :
    wrapServe (some errServerClosed) = none
      ∧ wrapServe none = none
      ∧ (e ≠ errServerClosed → wrapServe (some e) = some e)
      ∧ egWait (rs.map wrapServe) = (rs.filterMap wrapServe).head?
      ∧ (∀ e', (rs.filterMap wrapServe).head? = some e' →
          waitWithContext pd pe (rs.map wrapServe) = some e')
      ∧ (∀ e', waitWithContext pd pe
            (((g.RunWithContext env pd pe).launched.map env.serve).map wrapServe) = some e' →
          (g.RunWithContext env pd pe).result = some e')
      ∧ (g.RunWithContext env pd pe).earlyShutdown = pd
      ∧ (g.RunWithContext env false pe).earlyShutdown = false := by
  refine ⟨by simp [wrapServe], rfl, ?_, ?_, ?_, ?_,
    runWithContext_earlyShutdown env pd pe g, runWithContext_earlyShutdown env false pe g⟩
  · intro h; simp [wrapServe, h]
  · simp [egWait, List.filterMap_map, Function.comp_def]
  · intro e' h
    simp [waitWithContext, egWait, List.filterMap_map, Function.comp_def, h]
  · intro e' h
    rw [runWithContext_launched] at h
    rw [runWithContext_eq_body]
    apply runBody_result_of_wait
    by_cases hl : g.listenAndServe.length = 0
    · have hnil : g.listenAndServe = [] := List.length_eq_zero.mp hl
      simp only [hl, if_true] at h ⊢
      simpa [hnil] using h
    · simp only [hl, if_false] at h ⊢
      exact h

theorem c7_witness : wrapServe (some "boom") = some "boom" :=
  (c7_serve_error_terminal_but_no_early_shutdown [] "boom" false "" env0
    initialGraceful).2.2.1 (by decide)

/-- C7 counterexample: with two listeners of which the first fails
with a bind error, the run's terminal error is that serve error — but
no Shutdown happens during the run (`earlyShutdown = false`: the
derived context is never cancelled by a serve error) and both tracked
servers are still present, un-shut-down, when the run returns.  This
refutes "any other serve error ... causes the sibling listeners to be
shut down early". -/
theorem c7_counterexample :
    (g7.RunWithContext env7 false errContextCanceled).result = some errBind
      ∧ (g7.RunWithContext env7 false errContextCanceled).earlyShutdown = false
      ∧ (g7.RunWithContext env7 false errContextCanceled).state.servers.length = 2 := by
  exact ⟨rfl, rfl, rfl⟩

/-- C9: applying the Preconfigured-server strategy with a nil server
fails at apply time with the explicit nil-server error, and that
strategy is the only one validated eagerly: Address, TLS and
Custom-Listener never fail at apply time (TLS in particular succeeds
for every address and certificate/key path), while Unix-path and
File-descriptor fail at apply time exactly when the environment's bind
or adoption fails — never from argument validation.  A bad certificate
surfaces only in the serve outcome once the serve function actually
runs: the run's result reflects the TLS serve call's outcome for the
given paths. -/
theorem c9_only_preconfigured_validated_eagerly (env : Env) (g : Graceful)
    (a c k f : String) (n lid : Nat) (srv : HTTPServer) (pe : Err) :
    g.apply env (.server none) = .error errNilServer
      ∧ g.apply env (.server (some srv))
          = .ok { g with listenAndServe := g.listenAndServe ++ [Strategy.server (some srv)],
                         cleanup := g.cleanup ++ [CleanupAct.donothing] }
      ∧ g.apply env (.tls a c k)
          = .ok { g with listenAndServe := g.listenAndServe ++ [Strategy.tls a c k],
                         cleanup := g.cleanup ++ [CleanupAct.donothing] }
      ∧ g.apply env (.addr a)
          = .ok { g with listenAndServe := g.listenAndServe ++ [Strategy.addr a],
                         cleanup := g.cleanup ++ [CleanupAct.donothing] }
      ∧ g.apply env (.listener lid)
          = .ok { g with listenAndServe := g.listenAndServe ++ [Strategy.listener lid],
                         cleanup := g.cleanup ++ [CleanupAct.donothing] }
      ∧ ((∃ g', g.apply env (.unixSock f) = .ok g') ↔ env.unixListen f = none)
      ∧ ((∃ g', g.apply env (.fd n) = .ok g') ↔ env.fdListen n = none)
      ∧ New env [Strategy.tls a c k] = .ok (tlsOnly a c k)
      ∧ ((tlsOnly a c k).RunWithContext env false pe).result
          = wrapServe (env.serve (Strategy.tls a c k)) := by
  refine ⟨rfl, rfl, rfl, rfl, rfl, ?_, ?_, rfl, ?_⟩
  · cases hu : env.unixListen f <;> simp [Graceful.apply, optionApply, hu]
  · cases hn : env.fdListen n <;> simp [Graceful.apply, optionApply, hn]
  · rw [runWithContext_eq_body]
    cases hw : wrapServe (env.serve (Strategy.tls a c k)) <;>
      simp [runBody, tlsOnly, waitWithContext, egWait, hw, Graceful.Shutdown,
        shutdownLoopGo, Graceful.serveEffect, Graceful.appendHTTPServer]

theorem runWithContext_lenInv (env : Env) (pd : Bool) (pe : Err) (g : Graceful)
    (h : lenInv g) : lenInv ((g.RunWithContext env pd pe).state) := by
  unfold lenInv at h ⊢
  rw [runWithContext_state_listenAndServe, runWithContext_launched,
    runWithContext_state_cleanup]
  by_cases hl : g.listenAndServe.length = 0 <;>
    simp only [hl, if_true, if_false, List.length_append, List.length_cons,
      List.length_nil] <;> omega

theorem newGo_lenInv (env : Env) : ∀ (opts : List Strategy) (g gN : Graceful),
    lenInv g → NewGo env g opts = .ok gN → lenInv gN := by
  intro opts
  induction opts with
  | nil =>
      intro g gN hg h
      unfold NewGo at h
      injection h with h2
      exact h2 ▸ hg
  | cons o rest ih =>
      intro g gN hg h
      unfold NewGo at h
      cases ha : g.apply env o with
      | error e => rw [ha] at h; exact Except.noConfusion h
      | ok g' =>
          rw [ha] at h
          have hf := apply_ok_fields env g o g' ha
          refine ih g' gN ?_ h
          unfold lenInv at hg ⊢
          omega

theorem runLoop_lenInv (env : Env) : ∀ (addrs : List String) (g : Graceful),
    lenInv g → lenInv ((g.Run env addrs).state) := by
  intro addrs
  induction addrs with
  | nil => intro g hg; exact runWithContext_lenInv env false errContextCanceled g hg
  | cons a rest ih =>
      intro g hg
      unfold Graceful.Run
      cases ha : g.apply env (.addr a) with
      | error e => exact hg
      | ok g' =>
          have hf := apply_ok_fields env g (.addr a) g' ha
          refine ih g' ?_
          unfold lenInv at hg ⊢
          omega

/-- C10: the serve-function list and the cleanup-function list keep
equal length across every public operation: apply appends exactly one
entry to each on success and none on failure, construction and every
run entry point (including the default-listener injection) preserve
the equality, Shutdown, Start and Stop never touch the two lists, and
Close clears both together. -/
theorem c10_serve_and_cleanup_lists_equal_length (env : Env) (g : Graceful) (s : Strategy)
    (opts : List Strategy) (addrs : List String) (pd : Bool) (pe : Err)
    (runErr : Option Err) (a c k : String) (h : lenInv g) :
    (∀ g', g.apply env s = .ok g' → lenInv g'
        ∧ g'.listenAndServe.length = g.listenAndServe.length + 1
        ∧ g'.cleanup.length = g.cleanup.length + 1)
      ∧ lenInv (g.Start).1
      ∧ lenInv (g.Stop runErr).1
      ∧ lenInv g.Shutdown.state
      ∧ lenInv g.Close.state
      ∧ lenInv ((g.RunWithContext env pd pe).state)
      ∧ (∀ gN, New env opts = .ok gN → lenInv gN)
      ∧ lenInv ((g.Run env addrs).state)
      ∧ lenInv ((g.RunTLS env a c k).state) := by
  refine ⟨?_, ?_, ?_, h, rfl, runWithContext_lenInv env pd pe g h, ?_, runLoop_lenInv env addrs g h, ?_⟩
  · intro g' hap
    have hf := apply_ok_fields env g s g' hap
    unfold lenInv at h ⊢
    exact ⟨by omega, hf.2.2.1, hf.2.2.2⟩
  · unfold Graceful.Start
    split <;> exact h
  · unfold Graceful.Stop
    split <;> exact h
  · intro gN hN
    exact newGo_lenInv env opts initialGraceful gN rfl hN
  · unfold Graceful.RunTLS
    cases ha : g.apply env (.tls a c k) with
    | error e => exact h
    | ok g' =>
        have hf := apply_ok_fields env g (.tls a c k) g' ha
        refine runWithContext_lenInv env false errContextCanceled g' ?_
        unfold lenInv at h ⊢
        omega

theorem c10_witness : lenInv (initialGraceful.Start).1 :=
  (c10_serve_and_cleanup_lists_equal_length env0 initialGraceful
    (Strategy.addr ":8080") [] [] false "" none "a" "c" "k" rfl).2.1

/-- C2: Shutdown invokes every tracked server's graceful-shutdown
primitive (in order, even if an earlier one fails), returns the last
non-nil per-server error (nil when none fail), leaves the other two
collections alone but clears the tracked-server collection, so an
immediately following second Shutdown invokes no per-server shutdown
and returns nil. -/
theorem c2_shutdown_attempts_all_returns_last_error_and_clears (g : Graceful) :
    g.Shutdown.calls = g.servers.map (fun s => s.id)
      ∧ g.Shutdown.err = lastSome (g.servers.map fun s => s.shutdownResult)
      ∧ g.Shutdown.state.servers = []
      ∧ g.Shutdown.state.listenAndServe = g.listenAndServe
      ∧ g.Shutdown.state.cleanup = g.cleanup
      ∧ g.Shutdown.state.Shutdown.calls = []
      ∧ g.Shutdown.state.Shutdown.err = none := by
  exact ⟨shutdownLoopGo_calls g.servers none, shutdown_err_eq g, rfl, rfl, rfl, rfl, rfl⟩
